import Mathlib

set_option maxRecDepth 1000000

/-!
Verification development for the pdf-comparision repository.

The repository extracts numeric tokens from two structurally-identical PDF
documents (native text layer, with an image-recognition fallback), aligns the
two token sequences positionally, and reports value mismatches.

This file gives a shallow embedding of the core logic of
`pdf_compare22.py` (and, for the report builder, also of `pdf_compare.py`):

* numeric values are modelled by `ℚ` (the code compares parsed decimal
  literals with a strict `>` tolerance test, which `ℚ` reflects exactly);
* rectangles are quadruples of rationals; `fitz.Rect()` is the all-zero
  rectangle;
* regular-expression matching of the two anchored patterns
  `^-?[\d,]+\.?\d*$` and the date pattern, Python `float` parsing of the
  strings those patterns can produce, `re.findall(r"\d+", ...)` digit-run
  extraction and `finditer` scanning are implemented as executable functions
  on `List Char`;
* the external Google Vision recognition capability is modelled at its
  interface: a response is either a transport failure, an error message, or a
  list of recognized words each carrying text and a `[0,1]`-normalized
  bounding box (the vertex-to-normalized-box arithmetic of
  `ocr_image_with_boxes` happens on the provider's response structure and is
  folded into that interface); exceptions raised while rasterizing a
  page/region are modelled by an explicit `crash` outcome, since the
  surrounding `try/except` blocks reduce every such exception to "leave the
  page's tokens unchanged".
-/

/-- Model of `fitz.Rect`: an axis-aligned rectangle given by two corners. -/
structure Rect where
  x0 : ℚ
  y0 : ℚ
  x1 : ℚ
  y1 : ℚ
deriving DecidableEq

/-- `fitz.Rect()` — the default (empty, all zero) rectangle used as the
"no location" sentinel. -/
def Rect.zero : Rect := ⟨0, 0, 0, 0⟩

/-- Width of a rectangle, as used by the span-interpolation arithmetic. -/
def Rect.width (r : Rect) : ℚ := r.x1 - r.x0

/-- Height of a rectangle. -/
def Rect.height (r : Rect) : ℚ := r.y1 - r.y0

/-- Model of the `NumberMatch` dataclass of `pdf_compare22.py`: one number
found in a PDF together with its location and provenance. -/
structure NumberMatch where
  value : String
  numeric_value : ℚ
  page : ℕ
  rect : Rect
  line_number : ℕ
  source : String := "text"
deriving DecidableEq

/-- Model of the `Difference` dataclass of `pdf_compare22.py`. -/
structure Difference where
  page : ℕ
  line : ℕ
  old_value : String
  new_value : String
  old_rect : Rect
  new_rect : Rect
  source : String := "text"
deriving DecidableEq

/-- The value-mismatch `Difference` built inside the common-prefix loop of
`compare_numbers` (lines 749–761 of `pdf_compare22.py`): page, line, texts
and boxes come from the two aligned tokens, and the provenance is
`"ocr"` as soon as either side used recognition. -/
def mkValueDiff (n1 n2 : NumberMatch) : Difference :=
  { page := n1.page
    line := n1.line_number
    old_value := n1.value
    new_value := n2.value
    old_rect := n1.rect
    new_rect := n2.rect
    source := if n1.source = "ocr" ∨ n2.source = "ocr" then "ocr" else "text" }

/-- The `Difference` built for a leftover baseline token (lines 768–778):
the candidate side carries the `"<missing>"` sentinel and an empty box. -/
def missing_in_new (n : NumberMatch) : Difference :=
  { page := n.page
    line := n.line_number
    old_value := n.value
    new_value := "<missing>"
    old_rect := n.rect
    new_rect := Rect.zero
    source := n.source }

/-- The `Difference` built for a leftover candidate token (lines 781–791):
the baseline side carries the `"<missing>"` sentinel and an empty box. -/
def missing_in_old (n : NumberMatch) : Difference :=
  { page := n.page
    line := n.line_number
    old_value := "<missing>"
    new_value := n.value
    old_rect := Rect.zero
    new_rect := n.rect
    source := n.source }

/-- Model of `compare_numbers` (`pdf_compare22.py`, lines 720–793).
The Python loop `for i in range(min_len)` reads the two sequences
index-for-index, which is rendered by `List.zip`; the two trailing loops
over `range(min_len, len(numbersK))` are rendered by `List.drop min_len`.
The `if len(numbers1) != len(numbers2)` guard of the source is kept even
though the dropped suffixes are empty when the lengths agree. -/
def compare_numbers (numbers1 numbers2 : List NumberMatch)
    (tolerance : ℚ := 1/10000) : List Difference :=
  let min_len := min numbers1.length numbers2.length
  let differences :=
    (numbers1.zip numbers2).filterMap fun p =>
      if tolerance < |p.1.numeric_value - p.2.numeric_value| then
        some (mkValueDiff p.1 p.2)
      else
        none
  if numbers1.length ≠ numbers2.length then
    differences
      ++ (numbers1.drop min_len).map missing_in_new
      ++ (numbers2.drop min_len).map missing_in_old
  else
    differences

/-- Specification-side restatement of the common-prefix part of
`compare_numbers`: one value-mismatch `Difference` for exactly those aligned
index pairs whose values differ by strictly more than the tolerance. -/
def commonDiffs (numbers1 numbers2 : List NumberMatch) (tolerance : ℚ) :
    List Difference :=
  ((numbers1.zip numbers2).filter fun p =>
      decide (tolerance < |p.1.numeric_value - p.2.numeric_value|)).map
    fun p => mkValueDiff p.1 p.2

/-- One entry of the `differences` array of the JSON report
(`generate_report`, lines 940–947): the page is converted to 1-indexed. -/
structure ReportEntry where
  page : ℕ
  line : ℕ
  old : String
  new : String
  source : String
deriving DecidableEq

/-- Model of the dictionary returned by `generate_report`
(`pdf_compare22.py`, lines 911–949). -/
structure Report where
  status : String
  total_differences : ℕ
  pdf1_ocr_pages : ℕ
  pdf2_ocr_pages : ℕ
  differences : List ReportEntry
  diff_pdf : String
deriving DecidableEq

/-- Model of `generate_report` (`pdf_compare22.py`, lines 911–949). -/
def generate_report (differences : List Difference) (output_pdf_path : String)
    (ocr_pages_pdf1 : ℕ := 0) (ocr_pages_pdf2 : ℕ := 0) : Report :=
  { status := if differences.length = 0 then "OK" else "Fail"
    total_differences := differences.length
    pdf1_ocr_pages := ocr_pages_pdf1
    pdf2_ocr_pages := ocr_pages_pdf2
    differences := differences.map fun d =>
      { page := d.page + 1
        line := d.line
        old := d.old_value
        new := d.new_value
        source := d.source }
    diff_pdf := output_pdf_path }

namespace PdfCompareLegacy

/-- Report entry of the legacy pipeline `pdf_compare.py` (lines 340–346):
same fields, no provenance. -/
structure ReportEntry where
  page : ℕ
  line : ℕ
  old : String
  new : String
deriving DecidableEq

/-- Report dictionary of the legacy pipeline `pdf_compare.py`
(lines 333–338): no OCR page counts. -/
structure Report where
  status : String
  total_differences : ℕ
  differences : List ReportEntry
  diff_pdf : String
deriving DecidableEq

/-- Model of `generate_report` of `pdf_compare.py` (lines 322–348). -/
def generate_report (differences : List Difference) (output_pdf_path : String) :
    Report :=
  { status := if differences.length = 0 then "OK" else "Fail"
    total_differences := differences.length
    differences := differences.map fun d =>
      { page := d.page + 1
        line := d.line
        old := d.old_value
        new := d.new_value }
    diff_pdf := output_pdf_path }

end PdfCompareLegacy

/-- A concrete token used in witnesses: the number `100.00`. -/
def tokenA : NumberMatch :=
  { value := "100.00", numeric_value := 100, page := 0, rect := ⟨0, 0, 10, 10⟩,
    line_number := 1, source := "text" }

/-- A concrete token used in witnesses: the number `750.00` on another page. -/
def tokenB : NumberMatch :=
  { value := "750.00", numeric_value := 750, page := 1, rect := ⟨1, 1, 2, 2⟩,
    line_number := 4, source := "text" }

/-- Five copies of `tokenA`, for the C3 witness. -/
def fiveTokens : List NumberMatch := List.replicate 5 tokenA

/-- Three copies of `tokenA`, for the C3 witness. -/
def threeTokens : List NumberMatch := List.replicate 3 tokenA

/-- Numeric value of one `'0'`–`'9'` character. -/
def digitVal (c : Char) : ℕ := c.toNat - 48

/-- Base-10 value of a digit string, read left to right (the model of
Python `float`/`int` applied to a plain digit string; leading zeros are
allowed and ignored positionally). -/
def natOfDigits (l : List Char) : ℕ :=
  l.foldl (fun n c => 10 * n + digitVal c) 0

/-- Model of Python `float(s)` on the strings this program can feed it:
the shape `-?[0-9]*\.?[0-9]*` (what remains of the matched patterns after
commas are stripped; `+` signs, exponents, spaces and special values never
occur).  Returns `none` where `float` raises `ValueError`: no digits at all
(`""`, `"-"`, `"."`, `"-."`), or a malformed remainder. -/
def parseFloat? (l : List Char) : Option ℚ :=
  let neg := l.head? == some '-'
  let t := if neg then l.tail else l
  let ip := t.takeWhile Char.isDigit
  let rest := t.dropWhile Char.isDigit
  let val? : Option ℚ :=
    match rest with
    | [] => if ip.isEmpty then none else some ((natOfDigits ip : ℚ))
    | '.' :: fp =>
      if fp.all Char.isDigit then
        if ip.isEmpty ∧ fp.isEmpty then none
        else
          some ((natOfDigits ip : ℚ)
            + mkRat (natOfDigits fp) (10 ^ fp.length))
      else none
    | _ => none
  val?.map fun v => if neg then -v else v

/-- `reparse`: strip the thousands-separator commas from a token's raw text
and convert the remainder to a number — the round-trip re-parse the spec's
testable property is about (`num_str.replace(",", "")` feeding `float`). -/
def reparse (s : String) : Option ℚ :=
  parseFloat? (s.toList.filter fun c => !(c == ','))

/-- Substring containment on character lists (model of Python's `in`). -/
def listContains (needle : List Char) : List Char → Bool
  | [] => needle.isEmpty
  | l@(_ :: t) => needle.isPrefixOf l || listContains needle t

/-- Python `str.strip()` on a character list: drop leading and trailing
whitespace. -/
def stripChars (l : List Char) : List Char :=
  ((l.dropWhile Char.isWhitespace).reverse.dropWhile Char.isWhitespace).reverse

/-- Model of `GoogleVisionOCRProcessor.looks_like_cid_encoded` (lines
112–114): `"(cid:" in text.lower()`. -/
def looks_like_cid_encoded (text : String) : Bool :=
  listContains ("(cid:".toList) (text.toList.map Char.toLower)

/-- A character matched by the `[\d,]` class. -/
def isNumChar (c : Char) : Bool := c.isDigit || c == ','

/-- Full (anchored) match of `number_pattern = ^-?[\d,]+\.?\d*$`
(`pdf_compare22.py`, line 355).  After the optional sign, the greedy
`[\d,]+` must consume a nonempty run; whatever follows must be nothing, or
a dot followed by digits only. -/
def matchesNumber (l : List Char) : Bool :=
  let t := if l.head? == some '-' then l.tail else l
  let core := t.takeWhile isNumChar
  let rest := t.dropWhile isNumChar
  !core.isEmpty &&
    match rest with
    | [] => true
    | '.' :: fp => fp.all Char.isDigit
    | _ => false

/-- A character matched by the date pattern's separator class (a dash or a slash). -/
def isDateSep (c : Char) : Bool := c == '-' || c == '/'

/-- Anchored match of the year-first date shape `\d\d\d\d sep \d\d sep \d\d`
(10 characters with separators at offsets 4 and 7). -/
def dateShapeYearFirst : List Char → Bool
  | [c0, c1, c2, c3, s1, c4, c5, s2, c6, c7] =>
    c0.isDigit && c1.isDigit && c2.isDigit && c3.isDigit && isDateSep s1 &&
      c4.isDigit && c5.isDigit && isDateSep s2 && c6.isDigit && c7.isDigit
  | _ => false

/-- Anchored match of the day-first date shape `\d\d sep \d\d sep \d\d\d\d`
(10 characters with separators at offsets 2 and 5). -/
def dateShapeDayFirst : List Char → Bool
  | [c0, c1, s1, c2, c3, s2, c4, c5, c6, c7] =>
    c0.isDigit && c1.isDigit && isDateSep s1 && c2.isDigit && c3.isDigit &&
      isDateSep s2 && c4.isDigit && c5.isDigit && c6.isDigit && c7.isDigit
  | _ => false

/-- Full match of `date_pattern` (`pdf_compare22.py`, line 356). -/
def matchesDate (l : List Char) : Bool :=
  dateShapeYearFirst l || dateShapeDayFirst l

/-- Accumulator pass of `re.findall(r"\d+", s)`: `cur` is the current digit
run, reversed. -/
def digitRunsAux : List Char → List Char → List (List Char)
  | [], cur => if cur.isEmpty then [] else [cur.reverse]
  | c :: t, cur =>
    if c.isDigit then
      digitRunsAux t (c :: cur)
    else if cur.isEmpty then
      digitRunsAux t []
    else
      cur.reverse :: digitRunsAux t []

/-- Model of `re.findall(r"\d+", s)`: the maximal digit runs of `s`, in
order. -/
def digitRuns (l : List Char) : List (List Char) :=
  digitRunsAux l []

/-- The match of `-?[\d,]+\.?\d*` anchored at the head of `l`, if any,
with Python's leftmost-greedy semantics: an optional sign (kept only if at
least one `[\d,]` character follows), then the maximal `[\d,]` run, then a
dot if one is next, then the maximal digit run.  Returns the matched
characters and the unconsumed suffix; a successful match consumes at least
one character. -/
def matchNumberHere (l : List Char) : Option (List Char × List Char) :=
  let signed := l.head? == some '-'
  let t := if signed then l.tail else l
  if (t.head?.map isNumChar).getD false then
    let core := t.takeWhile isNumChar
    let r1 := t.dropWhile isNumChar
    let (m2, rest) :=
      match r1 with
      | '.' :: r2 => ('.' :: r2.takeWhile Char.isDigit, r2.dropWhile Char.isDigit)
      | _ => ([], r1)
    some ((if signed then ['-'] else []) ++ core ++ m2, rest)
  else
    none

/-- Fuel-driven scan implementing `number_pattern.finditer(text)`: try a
match at the current position; on success record `(start, match)` and resume
after it, otherwise advance one character.  Every step consumes at least one
character, so fuel `l.length` suffices to scan all of `l`. -/
def findNumbersAux : ℕ → ℕ → List Char → List (ℕ × List Char)
  | 0, _, _ => []
  | _ + 1, _, [] => []
  | fuel + 1, i, l@(_ :: t) =>
    match matchNumberHere l with
    | some (m, rest) => (i, m) :: findNumbersAux fuel (i + m.length) rest
    | none => findNumbersAux fuel (i + 1) t

/-- All matches of `number_pattern` in `l` with their start offsets
(model of `finditer`; the end offset is the start plus the match length). -/
def findNumbers (l : List Char) : List (ℕ × List Char) :=
  findNumbersAux l.length 0 l

/-- One recognized word as returned across the recognition interface:
text plus the `[0,1]`-normalized bounding box `(x0, y0, x1, y1)` that
`ocr_image_with_boxes` computes from the provider's vertex list. -/
structure OcrWord where
  text : String
  x0 : ℚ
  y0 : ℚ
  x1 : ℚ
  y1 : ℚ
deriving DecidableEq

/-- The currency-glyph strip plus whitespace strip applied to each
recognized word (`pdf_compare22.py`, line 372). -/
def clean_word (s : String) : String :=
  String.mk (stripChars (s.toList.filter fun c =>
    !(c == '¥' || c == '$' || c == '€' || c == '£')))

/-- Python's `round` to the nearest integer with ties to even, on exact
rationals. -/
def roundHalfEven (q : ℚ) : ℤ :=
  let f := q.floor
  let r := q - f
  if r < mkRat 1 2 then f
  else if mkRat 1 2 < r then f + 1
  else if f % 2 = 0 then f
  else f + 1

/-- `round(y, 2)` of the sort key (`pdf_compare22.py`, line 346). -/
def pyRound2 (q : ℚ) : ℚ := (roundHalfEven (q * 100) : ℚ) * mkRat 1 100

/-- The spatial sort key of a recognized word (lines 341–347): the
vertical center rounded to two decimals, then the horizontal center. -/
def word_sort_key (w : OcrWord) : ℚ × ℚ :=
  (pyRound2 ((w.y0 + w.y1) * mkRat 1 2), (w.x0 + w.x1) * mkRat 1 2)

/-- Lexicographic comparison of sort keys, as Python's stable `sorted`
orders tuples. -/
def word_le (a b : OcrWord) : Bool :=
  let ka := word_sort_key a
  let kb := word_sort_key b
  decide (ka.1 < kb.1) || (decide (ka.1 = kb.1) && decide (ka.2 ≤ kb.2))

/-- `sorted(words_with_boxes, key=sort_key)` (line 349): a stable sort by
the spatial key. -/
def sortWords (ws : List OcrWord) : List OcrWord := ws.mergeSort word_le

/-- The mutable scan state of the word loop of
`extract_numbers_from_ocr_words`: the running line counter, the `last_y`
tracker (initialized to `-1`), and the accumulated tokens. -/
structure OcrScanState where
  line_counter : ℕ
  last_y : ℚ
  acc : List NumberMatch

/-- Mapping of a word's normalized box to PDF coordinates inside the
rasterized region (lines 385–389). -/
def ocr_word_rect (region : Rect) (w : OcrWord) : Rect :=
  ⟨region.x0 + w.x0 * region.width,
   region.y0 + w.y0 * region.height,
   region.x0 + w.x1 * region.width,
   region.y0 + w.y1 * region.height⟩

/-- One iteration of the word loop of `extract_numbers_from_ocr_words`
(`pdf_compare22.py`, lines 367–450): clean the word, skip it if empty,
advance the line counter when the vertical position jumps by more than
`0.03`, then classify the cleaned text as date-shaped (one token valued at
the concatenation of its digit groups), pure-number-shaped (one token,
discarded when it reduces to zeros/commas/periods only), or composite
(one token per digit run of length at least 3, short runs kept only when
they are the word's only run). -/
def ocr_word_step (page_num : ℕ) (region : Rect) (st : OcrScanState)
    (w : OcrWord) : OcrScanState :=
  let clean := clean_word w.text
  if clean.isEmpty then st
  else
    let lcly :=
      if st.last_y < 0 ∨ mkRat 3 100 < |w.y0 - st.last_y| then
        (st.line_counter + 1, w.y0)
      else
        (st.line_counter, st.last_y)
    let lc := lcly.1
    let num_rect := ocr_word_rect region w
    let cl := clean.toList
    let acc2 :=
      if matchesDate cl then
        let date_nums := digitRuns cl
        if date_nums.length = 3 then
          match parseFloat? date_nums.join with
          | some v => st.acc ++ [⟨clean, v, page_num, num_rect, lc, "ocr"⟩]
          | none => st.acc
        else st.acc
      else if matchesNumber cl then
        match parseFloat? (cl.filter fun c => !(c == ',')) with
        | some v =>
          if (cl.filter fun c => !(c == ',' || c == '.' || c == '0')).isEmpty
          then st.acc
          else if clean = "," ∨ clean = "." ∨ clean = "-" then st.acc
          else st.acc ++ [⟨clean, v, page_num, num_rect, lc, "ocr"⟩]
        | none => st.acc
      else
        (digitRuns cl).foldl
          (fun acc run =>
            if run.length < 3 ∧ 1 < (digitRuns cl).length then acc
            else
              match parseFloat? run with
              | some v =>
                acc ++ [⟨String.mk run, v, page_num, num_rect, lc, "ocr"⟩]
              | none => acc)
          st.acc
    ⟨lc, lcly.2, acc2⟩

/-- Model of `extract_numbers_from_ocr_words` (`pdf_compare22.py`, lines
315–452): sort the recognized words spatially, then run the classification
loop with the line counter seeded at `base_line` and `last_y = -1`. -/
def extract_numbers_from_ocr_words (words_with_boxes : List OcrWord)
    (page_num : ℕ) (region_rect : Rect) (base_line : ℕ) : List NumberMatch :=
  ((sortWords words_with_boxes).foldl (ocr_word_step page_num region_rect)
    ⟨base_line, -1, []⟩).acc

/-- One span of the `page.get_text("dict")` structure: raw text plus its
bounding rectangle. -/
structure TextSpan where
  text : String
  bbox : Rect
deriving DecidableEq

/-- One line of a text block: a list of spans. -/
structure TextLine where
  spans : List TextSpan
deriving DecidableEq

/-- One block of the page dictionary: its `type` field (0 for text) and
its lines. -/
structure TextBlock where
  btype : ℕ
  lines : List TextLine
deriving DecidableEq

/-- The `has_selectable_text` test applied to one span
(`pdf_compare22.py`, line 488): nonempty after stripping and not
carrying the `"(cid:"` unmapped-glyph marker. -/
def spanHasRealText (sp : TextSpan) : Bool :=
  !(stripChars sp.text.toList).isEmpty && !looks_like_cid_encoded sp.text

/-- The numbers found in one span of one line (`pdf_compare22.py`, lines
484–527): scan the span text with `number_pattern`, skip pure-punctuation
matches, parse after stripping commas (dropping the match when parsing
fails), and interpolate the sub-rectangle linearly across the span
proportionally to character offsets. -/
def span_numbers (page_num : ℕ) (line_no : ℕ) (sp : TextSpan) :
    List NumberMatch :=
  (findNumbers sp.text.toList).filterMap fun sm =>
    let num_str := sm.2
    if num_str.isEmpty ∨ num_str = [','] ∨ num_str = ['.'] ∨ num_str = ['-']
    then none
    else
      match parseFloat? (num_str.filter fun c => !(c == ',')) with
      | none => none
      | some v =>
        let char_width := sp.bbox.width * mkRat 1 (max sp.text.length 1)
        let start_x := sp.bbox.x0 + (sm.1 : ℚ) * char_width
        let end_x := sp.bbox.x0 + ((sm.1 : ℚ) + (num_str.length : ℚ)) * char_width
        some ⟨String.mk num_str, v, page_num,
          ⟨start_x, sp.bbox.y0, end_x, sp.bbox.y1⟩, line_no, "text"⟩

/-- Model of `extract_numbers_from_page` (`pdf_compare22.py`, lines
455–529): the line counter increments once per line of each text-type
block (lines of the `i`-th text line get line number `i + 1`), every span
is scanned for numbers, and the page "has selectable text" when any span
passes `spanHasRealText`. -/
def extract_numbers_from_page (blocks : List TextBlock) (page_num : ℕ) :
    List NumberMatch × Bool :=
  let text_lines := ((blocks.filter fun b => b.btype = 0).map
    TextBlock.lines).join
  let numbers := text_lines.enum.flatMap fun p =>
    p.2.spans.flatMap (span_numbers page_num (p.1 + 1))
  let has_selectable_text := text_lines.any fun ln =>
    ln.spans.any spanHasRealText
  (numbers, has_selectable_text)

/-- The outcome of one `document_text_detection` call, at the recognition
interface (`GoogleVisionOCRProcessor.ocr_image_with_boxes`, lines 150–215):
the call itself may raise (`failure`), the response may carry an error
message, or it yields recognized words with normalized boxes. -/
inductive VisionResponse where
  | failure
  | errorMsg (msg : String)
  | ok (words : List OcrWord)
deriving DecidableEq

/-- Model of `ocr_image_with_boxes` (lines 150–215): with no client it
returns `[]`; a raised exception is caught and yields `[]`; a response
carrying an error message yields `[]`; otherwise the word list. -/
def ocr_image_with_boxes (client : Bool) (resp : VisionResponse) :
    List OcrWord :=
  if !client then []
  else
    match resp with
    | .failure => []
    | .errorMsg _ => []
    | .ok ws => ws

/-- The outcome of one rasterize-and-recognize attempt inside
`extract_all_numbers`: either the surrounding `try` block crashed before
the recognition call returned (page/region rendering raised), or the
recognition call completed with some `VisionResponse`. -/
inductive OcrAttempt where
  | crash
  | response (resp : VisionResponse)
deriving DecidableEq

/-- One entry of `plumber_page.images` together with the outcome of its
crop-and-recognize attempt. -/
structure ImageItem where
  x0 : ℚ
  top : ℚ
  x1 : ℚ
  bottom : ℚ
  ocr : OcrAttempt
deriving DecidableEq

/-- Model of `GoogleVisionOCRProcessor.clamp_bbox_to_page` (lines
217–229). -/
def clamp_bbox_to_page (bbox page_bbox : ℚ × ℚ × ℚ × ℚ) :
    Option (ℚ × ℚ × ℚ × ℚ) :=
  let (x0, top, x1, bottom) := bbox
  let (px0, ptop, px1, pbottom) := page_bbox
  let cx0 := max px0 (min x0 px1)
  let cx1 := max px0 (min x1 px1)
  let ctop := max ptop (min top pbottom)
  let cbottom := max ptop (min bottom pbottom)
  if cx0 ≥ cx1 ∨ ctop ≥ cbottom then none
  else some (cx0, ctop, cx1, cbottom)

/-- One page of a document as `extract_all_numbers` sees it: the text
dictionary (`blocks`), the raw text (`page.get_text()`), the page
dimensions, the embedded images, whether accessing `plumber_page.images`
succeeds (`images_ok`, the outer `try` of lines 643–703), and the outcome
of the full-page recognition attempt (the `try` of lines 594–639). -/
structure PdfPage where
  blocks : List TextBlock
  raw_text : String
  width : ℚ
  height : ℚ
  images : List ImageItem
  images_ok : Bool
  full_ocr : OcrAttempt
deriving DecidableEq

/-- The native (text-layer) tokens of a page. -/
def native_numbers (p : PdfPage) (page_num : ℕ) : List NumberMatch :=
  (extract_numbers_from_page p.blocks page_num).1

/-- The `has_selectable_text` signal of a page. -/
def page_has_text (p : PdfPage) (page_num : ℕ) : Bool :=
  (extract_numbers_from_page p.blocks page_num).2

/-- The `needs_ocr` decision of `extract_all_numbers` (lines 574–586):
no selectable text at all, or selectable text with zero extracted numbers
and the `"(cid:"` marker in the raw page text (the cid test runs only when
an OCR processor object exists, i.e. when `use_ocr` is set). -/
def page_needs_ocr (use_ocr : Bool) (p : PdfPage) (page_num : ℕ) : Bool :=
  if !page_has_text p page_num then true
  else if (native_numbers p page_num).length = 0 then
    use_ocr && looks_like_cid_encoded p.raw_text
  else false

/-- One iteration of the embedded-image loop (lines 650–700): clamp the
image box to the page, skip the image when the clamp degenerates, when its
crop-and-recognize attempt crashes, when recognition returns no words or
when no numbers are extracted; otherwise append the image's tokens (with
the line counter seeded at the current token count) and mark the page as
OCR-augmented. -/
def process_image (client : Bool) (page_num : ℕ)
    (page_bbox : ℚ × ℚ × ℚ × ℚ) (st : List NumberMatch × Bool)
    (img : ImageItem) : List NumberMatch × Bool :=
  let numbers := st.1
  let applied := st.2
  match clamp_bbox_to_page (img.x0, img.top, img.x1, img.bottom) page_bbox with
  | none => (numbers, applied)
  | some sb =>
    match img.ocr with
    | .crash => (numbers, applied)
    | .response resp =>
      let ws := ocr_image_with_boxes client resp
      if !ws.isEmpty then
        let img_rect : Rect := ⟨sb.1, sb.2.1, sb.2.2.1, sb.2.2.2⟩
        let img_numbers :=
          extract_numbers_from_ocr_words ws page_num img_rect numbers.length
        if !img_numbers.isEmpty then (numbers ++ img_numbers, true)
        else (numbers, applied)
      else (numbers, applied)

/-- The per-page body of `extract_all_numbers` (lines 566–706): extract
native tokens; if OCR is needed and the OCR processor, its client and the
pdfplumber document are all available, run the full-page recognition
attempt and replace the native tokens when it yields tokens; otherwise,
on a page with selectable text (and OCR available), run the embedded-image
loop.  Returns the page's tokens and whether OCR was applied. -/
def process_page (use_ocr client plumber_ok : Bool) (p : PdfPage)
    (page_num : ℕ) : List NumberMatch × Bool :=
  let numbers := native_numbers p page_num
  let needs_ocr := page_needs_ocr use_ocr p page_num
  let ocr_ready := use_ocr && client && plumber_ok
  if needs_ocr && ocr_ready then
    match p.full_ocr with
    | .crash => (numbers, false)
    | .response resp =>
      let ws := ocr_image_with_boxes client resp
      if !ws.isEmpty then
        let page_rect : Rect := ⟨0, 0, p.width, p.height⟩
        let ocr_numbers := extract_numbers_from_ocr_words ws page_num page_rect 0
        if !ocr_numbers.isEmpty then (ocr_numbers, true)
        else (numbers, false)
      else (numbers, false)
  else if page_has_text p page_num && ocr_ready then
    if !p.images_ok then (numbers, false)
    else if !p.images.isEmpty then
      p.images.foldl (process_image client page_num (0, 0, p.width, p.height))
        (numbers, false)
    else (numbers, false)
  else (numbers, false)

/-- The page loop of `extract_all_numbers`, starting at a given page
index: concatenates each page's tokens in order and counts the pages on
which OCR was applied. -/
def extract_pages (use_ocr client plumber_ok : Bool) :
    ℕ → List PdfPage → List NumberMatch × ℕ
  | _, [] => ([], 0)
  | page_num, p :: rest =>
    let pr := process_page use_ocr client plumber_ok p page_num
    let r := extract_pages use_ocr client plumber_ok (page_num + 1) rest
    (pr.1 ++ r.1, (if pr.2 then 1 else 0) + r.2)

/-- Model of `extract_all_numbers` (`pdf_compare22.py`, lines 532–717):
`use_ocr` is the flag, `client` whether the Vision client initialized, and
`plumber_ok` whether the pdfplumber document opened. -/
def extract_all_numbers (use_ocr client plumber_ok : Bool)
    (pages : List PdfPage) : List NumberMatch × ℕ :=
  extract_pages use_ocr client plumber_ok 0 pages

/-- The spec's composite-token example word. -/
def wPOL : OcrWord := ⟨"POL-EN-2026-884201", 0, 0, 0, 0⟩

/-- A unit region rectangle used by concrete recognition examples. -/
def unitRegion : Rect := ⟨0, 0, 1, 1⟩

/-- The signed all-zero recognized word. -/
def wNegZero : OcrWord := ⟨"-0.00", 0, 0, 0, 0⟩

/-- The date word `"2026-01-21"`. -/
def wDateA : OcrWord := ⟨"2026-01-21", 0, 0, 0, 0⟩

/-- The date word `"2026-01-22"`. -/
def wDateB : OcrWord := ⟨"2026-01-22", 0, 0, 0, 0⟩

/-- The date word `"1111-11-11"` (year-first shape). -/
def wDateC : OcrWord := ⟨"1111-11-11", 0, 0, 0, 0⟩

/-- The date word `"11-11-1111"` (day-first shape). -/
def wDateD : OcrWord := ⟨"11-11-1111", 0, 0, 0, 0⟩

/-- The round-trip property of one token: its raw text re-parses to its
stored value, or it is a date-shaped token (whose raw text does not
re-parse). -/
def TokenRoundtrip (t : NumberMatch) : Prop :=
  reparse t.value = some t.numeric_value ∨ matchesDate t.value.toList = true

/-- Whether one rasterize-and-recognize attempt failed: the surrounding
code crashed, the recognition call raised, or the response carried an
error message. -/
def attempt_errors : OcrAttempt → Bool
  | .crash => true
  | .response .failure => true
  | .response (.errorMsg _) => true
  | .response (.ok _) => false

/-- A page with no content whose full-page recognition attempt crashes. -/
def pgErr : PdfPage := ⟨[], "", 612, 792, [], true, OcrAttempt.crash⟩

/-- The recognized word `"123"`. -/
def wNum : OcrWord := ⟨"123", 0, 0, 0, 0⟩

/-- A page with no text layer whose full-page recognition succeeds and
returns the word `"123"`. -/
def pgOcr : PdfPage :=
  ⟨[], "", 612, 792, [], true, OcrAttempt.response (VisionResponse.ok [wNum])⟩

/-- `filterMap` with an if-guard is `filter` followed by `map`. -/
theorem filterMap_ite_eq_filter_map {α β : Type} (l : List α) (p : α → Prop)
    [DecidablePred p] (f : α → β) :
    (l.filterMap fun a => if p a then some (f a) else none)
      = (l.filter fun a => decide (p a)).map f := by
  induction l with
  | nil => rfl
  | cons a t ih =>
    by_cases h : p a <;> simp [List.filterMap_cons, List.filter_cons, h, ih]

/-- `compare_numbers` decomposes into the common-prefix value mismatches and
the two blocks of "missing" differences for leftover tokens. -/
theorem compare_numbers_decomp (A B : List NumberMatch) (ε : ℚ) :
    compare_numbers A B ε
      = commonDiffs A B ε
        ++ (A.drop (min A.length B.length)).map missing_in_new
        ++ (B.drop (min A.length B.length)).map missing_in_old := by
  unfold compare_numbers commonDiffs
  rw [filterMap_ite_eq_filter_map]
  by_cases h : A.length = B.length
  · have hA : A.drop (min A.length B.length) = [] := by
      simp [h]
    have hB : B.drop (min A.length B.length) = [] := by
      simp [h]
    simp [h, hA, hB]
  · simp [h]

/-- Any pair in `l1.zip l2` is an index-aligned pair of elements. -/
theorem mem_zip_eq_get {α β : Type} :
    ∀ {l1 : List α} {l2 : List β} {p : α × β}, p ∈ l1.zip l2 →
      ∃ (i : ℕ) (h1 : i < l1.length) (h2 : i < l2.length),
        p = (l1.get ⟨i, h1⟩, l2.get ⟨i, h2⟩) := by
  intro l1
  induction l1 with
  | nil => intro l2 p hp; simp at hp
  | cons a t1 ih =>
    intro l2 p hp
    match l2 with
    | [] => simp at hp
    | b :: t2 =>
      rcases List.mem_cons.mp hp with h | h
      · exact ⟨0, by simp, by simp, h⟩
      · obtain ⟨i, h1, h2, hpe⟩ := ih h
        exact ⟨i + 1, by simpa using h1, by simpa using h2, hpe⟩

/-- C1: `compare_numbers` emits a value-mismatch `Difference` at aligned
index `i` (for `i < min(|A|,|B|)`) if and only if
`|A[i].numeric_value − B[i].numeric_value| > ε`: the common-prefix part of
its output is exactly the zip of the two sequences filtered by that strict
comparison (first conjunct).  In particular a pair whose values differ by
exactly `ε` produces no difference (second conjunct), and two sequences of
equal length with pairwise-equal values produce an empty difference list
(third conjunct, for any nonnegative tolerance such as the default `1e-4`). -/
theorem compare_numbers_value_mismatch_spec (A B : List NumberMatch) (ε : ℚ) :
    compare_numbers A B ε
      = commonDiffs A B ε
        ++ (A.drop (min A.length B.length)).map missing_in_new
        ++ (B.drop (min A.length B.length)).map missing_in_old
    ∧ (∀ a b : NumberMatch, |a.numeric_value - b.numeric_value| = ε →
        compare_numbers [a] [b] ε = [])
    ∧ (0 ≤ ε → A.length = B.length →
        (∀ (i : ℕ) (h1 : i < A.length) (h2 : i < B.length),
          (A.get ⟨i, h1⟩).numeric_value = (B.get ⟨i, h2⟩).numeric_value) →
        compare_numbers A B ε = []) := by
  refine ⟨compare_numbers_decomp A B ε, ?_, ?_⟩
  · intro a b hab
    simp [compare_numbers, hab]
  · intro hε hlen hval
    rw [compare_numbers_decomp]
    have hA : A.drop (min A.length B.length) = [] := by simp [hlen]
    have hB : B.drop (min A.length B.length) = [] := by simp [hlen]
    rw [hA, hB]
    simp only [List.map_nil, List.append_nil]
    unfold commonDiffs
    have hfil : ((A.zip B).filter fun p =>
        decide (ε < |p.1.numeric_value - p.2.numeric_value|)) = [] := by
      rw [List.filter_eq_nil]
      intro p hp
      obtain ⟨i, h1, h2, hpe⟩ := mem_zip_eq_get hp
      have hv : p.1.numeric_value = p.2.numeric_value := by
        rw [hpe]
        exact hval i h1 h2
      simp [hv, not_lt]
      exact hε
    rw [hfil]
    rfl

/-- Witness for C1: two identical singleton sequences compare to the empty
difference list under the default tolerance. -/
theorem compare_numbers_value_mismatch_spec_witness :
    compare_numbers [tokenA] [tokenA] (1/10000) = [] :=
  (compare_numbers_value_mismatch_spec [tokenA] [tokenA] (1/10000)).2.2
    (by norm_num) rfl (fun _ _ _ => rfl)

/-- C2: `generate_report` (in both `pdf_compare22.py` and the legacy
`pdf_compare.py`) reports `status = "OK"` exactly when the difference list is
empty, reports `status = "Fail"` otherwise, and reports
`total_differences` equal to the length of the difference list. -/
theorem generate_report_status_spec (ds : List Difference) (path : String)
    (o1 o2 : ℕ) :
    ((generate_report ds path o1 o2).status = "OK" ↔ ds = [])
    ∧ (ds ≠ [] → (generate_report ds path o1 o2).status = "Fail")
    ∧ (generate_report ds path o1 o2).total_differences = ds.length
    ∧ ((PdfCompareLegacy.generate_report ds path).status = "OK" ↔ ds = [])
    ∧ (ds ≠ [] → (PdfCompareLegacy.generate_report ds path).status = "Fail")
    ∧ (PdfCompareLegacy.generate_report ds path).total_differences
        = ds.length := by
  rcases ds with _ | ⟨d, t⟩ <;>
    simp [generate_report, PdfCompareLegacy.generate_report]

/-- Witness for C2: a nonempty difference list yields status `"Fail"`. -/
theorem generate_report_status_spec_witness :
    (generate_report [mkValueDiff tokenA tokenB] "out.pdf" 0 0).status
      = "Fail" :=
  (generate_report_status_spec [mkValueDiff tokenA tokenB] "out.pdf" 0 0).2.1
    (by decide)

/-- C3: when the two sequences have different lengths, `compare_numbers`
appends, after the common-prefix comparisons, exactly
`max(|A|,|B|) − min(|A|,|B|)` extra differences, one per leftover token of
the longer sequence; each such difference carries the `"<missing>"` sentinel
and the empty rectangle on the shorter side and the leftover token's text
and rectangle on the longer side. -/
theorem compare_numbers_length_mismatch_spec (A B : List NumberMatch) (ε : ℚ)
    (h : A.length ≠ B.length) :
    ∃ extras : List Difference,
      compare_numbers A B ε = commonDiffs A B ε ++ extras
      ∧ extras.length = max A.length B.length - min A.length B.length
      ∧ (B.length < A.length →
          extras = (A.drop B.length).map missing_in_new
          ∧ ∀ d ∈ extras,
              d.new_value = "<missing>" ∧ d.new_rect = Rect.zero
              ∧ ∃ n ∈ A.drop B.length,
                  d.old_value = n.value ∧ d.old_rect = n.rect)
      ∧ (A.length < B.length →
          extras = (B.drop A.length).map missing_in_old
          ∧ ∀ d ∈ extras,
              d.old_value = "<missing>" ∧ d.old_rect = Rect.zero
              ∧ ∃ n ∈ B.drop A.length,
                  d.new_value = n.value ∧ d.new_rect = n.rect) := by
  refine ⟨(A.drop (min A.length B.length)).map missing_in_new
      ++ (B.drop (min A.length B.length)).map missing_in_old,
    by rw [compare_numbers_decomp, List.append_assoc], ?_, ?_, ?_⟩
  · simp only [List.length_append, List.length_map, List.length_drop]
    omega
  · intro hBA
    have hmin : min A.length B.length = B.length := by omega
    have hB : B.drop B.length = [] := by simp
    rw [hmin, hB]
    refine ⟨by simp, ?_⟩
    intro d hd
    simp only [List.map_nil, List.append_nil, List.mem_map] at hd
    obtain ⟨n, hn, rfl⟩ := hd
    exact ⟨rfl, rfl, n, hn, rfl, rfl⟩
  · intro hAB
    have hmin : min A.length B.length = A.length := by omega
    have hA : A.drop A.length = [] := by simp
    rw [hmin, hA]
    refine ⟨by simp, ?_⟩
    intro d hd
    simp only [List.map_nil, List.nil_append, List.mem_map] at hd
    obtain ⟨n, hn, rfl⟩ := hd
    exact ⟨rfl, rfl, n, hn, rfl, rfl⟩

/-- Witness for C3: baseline length 5 versus candidate length 3 yields
exactly `2` extra differences, each with candidate side `"<missing>"`. -/
theorem compare_numbers_length_mismatch_spec_witness :
    ∃ extras : List Difference,
      compare_numbers fiveTokens threeTokens (1/10000)
          = commonDiffs fiveTokens threeTokens (1/10000) ++ extras
      ∧ extras.length
          = max fiveTokens.length threeTokens.length
            - min fiveTokens.length threeTokens.length
      ∧ (threeTokens.length < fiveTokens.length →
          extras = (fiveTokens.drop threeTokens.length).map missing_in_new
          ∧ ∀ d ∈ extras,
              d.new_value = "<missing>" ∧ d.new_rect = Rect.zero
              ∧ ∃ n ∈ fiveTokens.drop threeTokens.length,
                  d.old_value = n.value ∧ d.old_rect = n.rect)
      ∧ (fiveTokens.length < threeTokens.length →
          extras = (threeTokens.drop fiveTokens.length).map missing_in_old
          ∧ ∀ d ∈ extras,
              d.old_value = "<missing>" ∧ d.old_rect = Rect.zero
              ∧ ∃ n ∈ threeTokens.drop fiveTokens.length,
                  d.new_value = n.value ∧ d.new_rect = n.rect) :=
  compare_numbers_length_mismatch_spec fiveTokens threeTokens (1/10000)
    (by decide)

/-- C10: every value-mismatch `Difference` of the common prefix takes both
its `page` and its `line` field solely from the baseline-side token of its
index pair — the candidate token's page and line are not recorded (a
`Difference` has a single `page` and a single `line` field, and
`mkValueDiff` fills them from its first argument), so even when the two
aligned tokens lie on different pages the difference is attributed to the
baseline token's page. -/
theorem value_diff_fields_from_baseline (A B : List NumberMatch) (ε : ℚ)
    (d : Difference) (hd : d ∈ commonDiffs A B ε) :
    (∃ (i : ℕ) (h1 : i < A.length) (h2 : i < B.length),
        ε < |(A.get ⟨i, h1⟩).numeric_value - (B.get ⟨i, h2⟩).numeric_value|
        ∧ d = mkValueDiff (A.get ⟨i, h1⟩) (B.get ⟨i, h2⟩)
        ∧ d.page = (A.get ⟨i, h1⟩).page
        ∧ d.line = (A.get ⟨i, h1⟩).line_number)
    ∧ ∀ a b : NumberMatch,
        (mkValueDiff a b).page = a.page
        ∧ (mkValueDiff a b).line = a.line_number := by
  refine ⟨?_, fun a b => ⟨rfl, rfl⟩⟩
  unfold commonDiffs at hd
  obtain ⟨p, hpf, rfl⟩ := List.mem_map.mp hd
  have hpz := List.mem_filter.mp hpf
  obtain ⟨i, h1, h2, hpe⟩ := mem_zip_eq_get hpz.1
  have hcond : ε < |p.1.numeric_value - p.2.numeric_value| := by
    have := hpz.2
    simpa using this
  subst hpe
  exact ⟨i, h1, h2, hcond, rfl, rfl, rfl⟩

/-- Witness for C10: two aligned tokens on different pages (pages 0 and 1)
produce a difference attributed to the baseline token's page 0 and line. -/
theorem value_diff_fields_from_baseline_witness :
    (∃ (i : ℕ) (h1 : i < [tokenA].length) (h2 : i < [tokenB].length),
        (1/10000 : ℚ)
            < |([tokenA].get ⟨i, h1⟩).numeric_value
                - ([tokenB].get ⟨i, h2⟩).numeric_value|
        ∧ mkValueDiff tokenA tokenB
            = mkValueDiff ([tokenA].get ⟨i, h1⟩) ([tokenB].get ⟨i, h2⟩)
        ∧ (mkValueDiff tokenA tokenB).page = ([tokenA].get ⟨i, h1⟩).page
        ∧ (mkValueDiff tokenA tokenB).line
            = ([tokenA].get ⟨i, h1⟩).line_number)
    ∧ ∀ a b : NumberMatch,
        (mkValueDiff a b).page = a.page
        ∧ (mkValueDiff a b).line = a.line_number :=
  value_diff_fields_from_baseline [tokenA] [tokenB] (1/10000)
    (mkValueDiff tokenA tokenB) (by with_unfolding_all decide)

/-- A string is `isEmpty` exactly when its character list is empty. -/
theorem string_isEmpty_iff_toList {s : String} :
    s.isEmpty = true ↔ s.toList = [] := by
  rw [show s.toList = s.data from rfl]
  constructor
  · intro h
    rw [(String.isEmpty_iff s).mp h]
  · intro h
    exact (String.isEmpty_iff s).mpr (String.ext h)

/-- A digit character never equals a non-digit character (Bool form). -/
theorem digit_beq_false {c d : Char} (h : c.isDigit = true)
    (hd : d.isDigit = false) : (c == d) = false := by
  rcases hbe : (c == d) with _ | _
  · rfl
  · exfalso
    rw [beq_iff_eq.mp hbe, hd] at h
    exact Bool.false_ne_true h

/-- A date separator is not a digit. -/
theorem isDateSep_not_digit {c : Char} (h : isDateSep c = true) :
    c.isDigit = false := by
  unfold isDateSep at h
  rcases Bool.or_eq_true_iff.mp h with h1 | h1
  · rw [beq_iff_eq.mp h1]; rfl
  · rw [beq_iff_eq.mp h1]; rfl

/-- Every run produced by the digit-run scanner is a nonempty list of
digits (given that the accumulator holds digits). -/
theorem digitRunsAux_sound :
    ∀ (l cur : List Char), cur.all Char.isDigit = true →
      ∀ r ∈ digitRunsAux l cur, r ≠ [] ∧ r.all Char.isDigit = true := by
  intro l
  induction l with
  | nil =>
    intro cur hcur r hr
    unfold digitRunsAux at hr
    by_cases hc : cur.isEmpty
    · simp [hc] at hr
    · simp only [hc, Bool.false_eq_true, if_false, List.mem_singleton] at hr
      subst hr
      refine ⟨?_, by simpa using hcur⟩
      intro hrev
      rw [List.reverse_eq_nil_iff] at hrev
      rw [hrev] at hc
      exact hc rfl
  | cons c t ih =>
    intro cur hcur r hr
    unfold digitRunsAux at hr
    by_cases hcd : c.isDigit
    · rw [if_pos hcd] at hr
      exact ih (c :: cur) (by simp [hcd, hcur]) r hr
    · rw [if_neg hcd] at hr
      by_cases hce : cur.isEmpty
      · rw [if_pos hce] at hr
        exact ih [] rfl r hr
      · rw [if_neg hce] at hr
        rcases List.mem_cons.mp hr with h1 | h1
        · subst h1
          refine ⟨?_, by simpa using hcur⟩
          intro hrev
          rw [List.reverse_eq_nil_iff] at hrev
          rw [hrev] at hce
          exact hce rfl
        · exact ih [] rfl r h1

/-- Every digit run of a string is nonempty and all digits. -/
theorem digitRuns_sound {l : List Char} :
    ∀ r ∈ digitRuns l, r ≠ [] ∧ r.all Char.isDigit = true :=
  digitRunsAux_sound l [] rfl

/-- Python `float` on a nonempty plain digit string returns its base-10
value. -/
theorem parseFloat_digits {l : List Char} (hne : l ≠ [])
    (hd : l.all Char.isDigit = true) :
    parseFloat? l = some ((natOfDigits l : ℚ)) := by
  have hall : ∀ c ∈ l, c.isDigit := by simpa [List.all_eq_true] using hd
  have hbeq : (l.head? == some '-') = false := by
    cases hl : l.head? with
    | none => rfl
    | some c =>
      have hc : c ∈ l := by
        cases l with
        | nil => simp at hl
        | cons a t =>
          simp only [List.head?_cons, Option.some.injEq] at hl
          rw [hl]
          exact List.mem_cons_self c t
      have hcd := hall c hc
      simp only [beq_eq_false_iff_ne, ne_eq, Option.some.injEq]
      intro he
      rw [he] at hcd
      simp [Char.isDigit] at hcd
  simp only [parseFloat?, hbeq, Bool.false_eq_true, if_false]
  rw [List.takeWhile_eq_self_iff.mpr hall, List.dropWhile_eq_nil_iff.mpr hall]
  simp [List.isEmpty_iff, hne]

/-- Sorting a single recognized word is the identity. -/
theorem sortWords_singleton (w : OcrWord) : sortWords [w] = [w] := by
  simp [sortWords, List.mergeSort]

/-- Extraction from a single recognized word is one step of the word loop
from the initial state. -/
theorem extract_single (w : OcrWord) (i : ℕ) (r : Rect) (b : ℕ) :
    extract_numbers_from_ocr_words [w] i r b
      = (ocr_word_step i r ⟨b, -1, []⟩ w).acc := by
  rw [extract_numbers_from_ocr_words, sortWords_singleton]
  rfl

/-- The composite-word fold of `ocr_word_step` (lines 432–450) is a
filter-and-map: a run is kept unless it is shorter than 3 characters while
the word has more than one run; each kept run becomes one token valued at
its base-10 reading. -/
theorem ocr_runs_foldl (page_num : ℕ) (num_rect : Rect) (lc : ℕ) (K : ℕ) :
    ∀ (runs : List (List Char)) (acc : List NumberMatch),
      (∀ r ∈ runs, r ≠ [] ∧ r.all Char.isDigit = true) →
      runs.foldl
        (fun acc run =>
          if run.length < 3 ∧ 1 < K then acc
          else
            match parseFloat? run with
            | some v => acc ++ [⟨String.mk run, v, page_num, num_rect, lc, "ocr"⟩]
            | none => acc)
        acc
      = acc ++ (runs.filter fun run => decide (¬(run.length < 3 ∧ 1 < K))).map
          (fun run =>
            ⟨String.mk run, (natOfDigits run : ℚ), page_num, num_rect, lc,
              "ocr"⟩) := by
  intro runs
  induction runs with
  | nil => intro acc _; simp
  | cons r rs ih =>
    intro acc hruns
    have hr := hruns r (List.mem_cons_self r rs)
    have hrs : ∀ x ∈ rs, x ≠ [] ∧ x.all Char.isDigit = true :=
      fun x hx => hruns x (List.mem_cons.mpr (Or.inr hx))
    simp only [List.foldl_cons, List.filter_cons]
    by_cases hk : r.length < 3 ∧ 1 < K
    · have hdec : decide (¬(r.length < 3 ∧ 1 < K)) = false := by
        rw [decide_eq_false_iff_not]
        exact not_not_intro hk
      rw [if_pos hk, hdec, ih acc hrs]
      simp
    · have hdec : decide (¬(r.length < 3 ∧ 1 < K)) = true := by
        rw [decide_eq_true_eq]
        exact hk
      rw [if_neg hk, parseFloat_digits hr.1 hr.2, hdec, ih _ hrs]
      simp

/-- C7: a recognized word that is neither pure-number-shaped nor
date-shaped is decomposed into its embedded digit runs; a run shorter than
3 characters is discarded unless it is the word's only digit run, and each
kept run becomes one token whose numeric value is the run's base-10
reading (so `"POL-EN-2026-884201"` yields exactly the tokens `2026` and
`884201` — see the witness). -/
theorem composite_word_decomposition (w : OcrWord) (i : ℕ) (r : Rect)
    (b : ℕ)
    (hd : matchesDate (clean_word w.text).toList = false)
    (hn : matchesNumber (clean_word w.text).toList = false) :
    extract_numbers_from_ocr_words [w] i r b
      = ((digitRuns (clean_word w.text).toList).filter fun run =>
          decide (¬(run.length < 3
            ∧ 1 < (digitRuns (clean_word w.text).toList).length))).map
        (fun run =>
          ⟨String.mk run, (natOfDigits run : ℚ), i, ocr_word_rect r w,
            b + 1, "ocr"⟩) := by
  rw [extract_single]
  unfold ocr_word_step
  by_cases hemp : (clean_word w.text).isEmpty
  · rw [if_pos hemp]
    rw [string_isEmpty_iff_toList.mp hemp]
    rfl
  · rw [if_neg hemp]
    simp only [hd, hn, Bool.false_eq_true, if_false]
    have hneg : ((-1 : ℚ) < 0 ∨ mkRat 3 100 < |w.y0 - (-1 : ℚ)|) := by
      left
      norm_num
    rw [if_pos hneg]
    exact ocr_runs_foldl i (ocr_word_rect r w) (b + 1)
      (digitRuns (clean_word w.text).toList).length
      (digitRuns (clean_word w.text).toList) []
      (fun x hx => digitRuns_sound x hx)

/-- Witness for C7: the word `"POL-EN-2026-884201"` yields exactly the
tokens `2026` and `884201`, and no token for the shorter runs `20`/`26`
hidden in `2026`. -/
theorem composite_word_decomposition_witness :
    extract_numbers_from_ocr_words [wPOL] 0 unitRegion 0
      = [⟨"2026", ((2026 : ℕ) : ℚ), 0, ⟨0, 0, 0, 0⟩, 1, "ocr"⟩,
         ⟨"884201", ((884201 : ℕ) : ℚ), 0, ⟨0, 0, 0, 0⟩, 1, "ocr"⟩] := by
  have h := composite_word_decomposition wPOL 0 unitRegion 0 (by decide)
    (by decide)
  have hrect : ocr_word_rect unitRegion wPOL = ⟨0, 0, 0, 0⟩ := by
    unfold ocr_word_rect unitRegion wPOL
    simp only [Rect.width, Rect.height, Rect.mk.injEq]
    norm_num
  rw [h, hrect]
  decide

/-- `takeWhile` passes over a prefix that wholly satisfies the predicate. -/
theorem takeWhile_append_all {p : Char → Bool} :
    ∀ l1 l2 : List Char, l1.all p = true →
      List.takeWhile p (l1 ++ l2) = l1 ++ List.takeWhile p l2 := by
  intro l1
  induction l1 with
  | nil => intro l2 _; simp
  | cons c t ih =>
    intro l2 h
    rw [List.all_cons, Bool.and_eq_true] at h
    rw [List.cons_append, List.takeWhile_cons, if_pos h.1, ih l2 h.2,
      List.cons_append]

/-- `dropWhile` skips a prefix that wholly satisfies the predicate. -/
theorem dropWhile_append_all {p : Char → Bool} :
    ∀ l1 l2 : List Char, l1.all p = true →
      List.dropWhile p (l1 ++ l2) = List.dropWhile p l2 := by
  intro l1
  induction l1 with
  | nil => intro l2 _; simp
  | cons c t ih =>
    intro l2 h
    rw [List.all_cons, Bool.and_eq_true] at h
    rw [List.cons_append, List.dropWhile_cons, if_pos h.1, ih l2 h.2]

/-- Python `float` on `-ds.fs` (a sign, a nonempty integer digit part, a
dot and a fractional digit part). -/
theorem parseFloat_signed_decimal {ds fs : List Char} (hne : ds ≠ [])
    (hd : ds.all Char.isDigit = true) (hf : fs.all Char.isDigit = true) :
    parseFloat? ('-' :: (ds ++ '.' :: fs))
      = some (-((natOfDigits ds : ℚ)
          + mkRat (natOfDigits fs) (10 ^ fs.length))) := by
  unfold parseFloat?
  simp only [List.head?_cons, beq_self_eq_true, if_true, List.tail_cons]
  rw [takeWhile_append_all ds ('.' :: fs) hd,
    dropWhile_append_all ds ('.' :: fs) hd]
  rw [List.takeWhile_cons, List.dropWhile_cons]
  simp only [show Char.isDigit '.' = false from rfl, Bool.false_eq_true,
    if_false]
  simp [List.isEmpty_iff, hne, hf]

/-- A year-first date match contains a separator character. -/
theorem dateShapeYearFirst_mem_sep {l : List Char}
    (h : dateShapeYearFirst l = true) : ∃ c ∈ l, isDateSep c = true := by
  unfold dateShapeYearFirst at h
  split at h
  · rename_i c0 c1 c2 c3 s1 c4 c5 s2 c6 c7
    simp only [Bool.and_eq_true] at h
    exact ⟨s1, by simp, by tauto⟩
  · exact absurd h (by simp)

/-- A day-first date match contains a separator character. -/
theorem dateShapeDayFirst_mem_sep {l : List Char}
    (h : dateShapeDayFirst l = true) : ∃ c ∈ l, isDateSep c = true := by
  unfold dateShapeDayFirst at h
  split at h
  · rename_i c0 c1 s1 c2 c3 s2 c4 c5 c6 c7
    simp only [Bool.and_eq_true] at h
    exact ⟨s1, by simp, by tauto⟩
  · exact absurd h (by simp)

/-- A date match contains a separator character. -/
theorem matchesDate_mem_sep {l : List Char} (h : matchesDate l = true) :
    ∃ c ∈ l, isDateSep c = true := by
  unfold matchesDate at h
  rcases Bool.or_eq_true_iff.mp h with h1 | h1
  · exact dateShapeYearFirst_mem_sep h1
  · exact dateShapeDayFirst_mem_sep h1

/-- A nonempty cleaned word does not satisfy `String.isEmpty`. -/
theorem clean_not_isEmpty {s : String} (h : s.toList ≠ []) :
    s.isEmpty = false := by
  rcases he : s.isEmpty with _ | _
  · rfl
  · exact absurd (string_isEmpty_iff_toList.mp he) h

/-- A pure-number match is nonempty. -/
theorem matchesNumber_ne_nil {l : List Char} (h : matchesNumber l = true) :
    l ≠ [] := by
  intro hl
  rw [hl] at h
  exact absurd h (by decide)

/-- The single token produced by the pure-number branch of the word loop:
for a word whose cleaned text is number-shaped (and not date-shaped), whose
comma-stripped text parses, which does not reduce to zeros, commas and
periods only, and which is not bare punctuation, extraction yields exactly
one token carrying the cleaned text and the parsed value. -/
theorem extract_single_number_token {w : OcrWord} {v : ℚ} (i : ℕ) (r : Rect)
    (b : ℕ)
    (hd : matchesDate (clean_word w.text).toList = false)
    (hn : matchesNumber (clean_word w.text).toList = true)
    (hv : parseFloat? ((clean_word w.text).toList.filter
        fun c => !(c == ',')) = some v)
    (hz : (((clean_word w.text).toList.filter
        fun c => !(c == ',' || c == '.' || c == '0'))).isEmpty = false)
    (hnl : ¬(clean_word w.text = "," ∨ clean_word w.text = "."
        ∨ clean_word w.text = "-")) :
    extract_numbers_from_ocr_words [w] i r b
      = [⟨clean_word w.text, v, i, ocr_word_rect r w, b + 1, "ocr"⟩] := by
  rw [extract_single]
  have hemp : ¬((clean_word w.text).isEmpty = true) := by
    rw [clean_not_isEmpty (matchesNumber_ne_nil hn)]
    exact Bool.false_ne_true
  have hneg : ((-1 : ℚ) < 0 ∨ mkRat 3 100 < |w.y0 - (-1 : ℚ)|) := by
    left
    norm_num
  simp only [ocr_word_step, if_neg hemp, if_pos hneg, hd, hn, hv,
    Bool.false_eq_true, if_false, if_true, hz, if_neg hnl,
    List.nil_append]

/-- C9 (amended): a recognized word whose cleaned text is
pure-number-shaped and consists solely of the characters `'0'`, `','` and
`'.'` is discarded as recognition noise — no token is emitted.  (The
original claim spoke of all digit characters being zeros, but a signed
all-zero word such as `"-0.00"` is kept by the code — see the
counterexample — so the amendment additionally excludes the sign.) -/
theorem allzero_number_word_discarded (w : OcrWord) (i : ℕ) (r : Rect)
    (b : ℕ)
    (hn : matchesNumber (clean_word w.text).toList = true)
    (hz : (clean_word w.text).toList.all
        (fun c => c == '0' || c == ',' || c == '.') = true) :
    extract_numbers_from_ocr_words [w] i r b = [] := by
  have hall : ∀ c ∈ (clean_word w.text).toList,
      (c == '0' || c == ',' || c == '.') = true := by
    simpa [List.all_eq_true] using hz
  have hdate : matchesDate (clean_word w.text).toList = false := by
    rcases hdm : matchesDate (clean_word w.text).toList with _ | _
    · rfl
    · exfalso
      obtain ⟨c, hc, hsep⟩ := matchesDate_mem_sep hdm
      have := hall c hc
      rcases Bool.or_eq_true_iff.mp this with h1 | h1
      · rcases Bool.or_eq_true_iff.mp h1 with h2 | h2
        · rw [beq_iff_eq.mp h2] at hsep
          exact absurd hsep (by decide)
        · rw [beq_iff_eq.mp h2] at hsep
          exact absurd hsep (by decide)
      · rw [beq_iff_eq.mp h1] at hsep
        exact absurd hsep (by decide)
  rw [extract_single]
  have hemp : ¬((clean_word w.text).isEmpty = true) := by
    rw [clean_not_isEmpty (matchesNumber_ne_nil hn)]
    exact Bool.false_ne_true
  have hneg : ((-1 : ℚ) < 0 ∨ mkRat 3 100 < |w.y0 - (-1 : ℚ)|) := by
    left
    norm_num
  have hfil : ((clean_word w.text).toList.filter
      fun c => !(c == ',' || c == '.' || c == '0')) = [] := by
    rw [List.filter_eq_nil_iff]
    intro c hc
    have := hall c hc
    rcases Bool.or_eq_true_iff.mp this with h1 | h1
    · rcases Bool.or_eq_true_iff.mp h1 with h2 | h2
      · simp [beq_iff_eq.mp h2]
      · simp [beq_iff_eq.mp h2]
    · simp [beq_iff_eq.mp h1]
  simp only [ocr_word_step, if_neg hemp, if_pos hneg, hdate, hn, hfil,
    Bool.false_eq_true, if_false, if_true, List.isEmpty_nil]
  rcases hpf : parseFloat? ((clean_word w.text).toList.filter
      fun c => !(c == ',')) with _ | v
  · rfl
  · rfl

/-- Witness for C9: the unsigned all-zero word `"0.00"` produces no
token. -/
theorem allzero_number_word_discarded_witness :
    extract_numbers_from_ocr_words [⟨"0.00", 0, 0, 0, 0⟩] 0 unitRegion 0
      = [] :=
  allzero_number_word_discarded ⟨"0.00", 0, 0, 0, 0⟩ 0 unitRegion 0
    (by decide) (by decide)

/-- Counterexample to C9 as stated: `"-0.00"` is pure-number-shaped and
all of its digit characters are zeros, yet a token IS emitted for it (the
all-zero test of line 415 strips only commas, periods and zeros, so the
leading sign makes the remainder nonempty). -/
theorem allzero_number_word_counterexample :
    matchesNumber ((clean_word wNegZero.text).toList) = true
    ∧ ((clean_word wNegZero.text).toList.filter Char.isDigit).all
        (fun c => c == '0') = true
    ∧ extract_numbers_from_ocr_words [wNegZero] 0 unitRegion 0
        = [⟨"-0.00", 0, 0, ⟨0, 0, 0, 0⟩, 1, "ocr"⟩] := by
  refine ⟨by decide, by decide, ?_⟩
  have hv : parseFloat? ((clean_word wNegZero.text).toList.filter
      fun c => !(c == ',')) = some 0 := by
    rw [show ((clean_word wNegZero.text).toList.filter
        fun c => !(c == ',')) = '-' :: (['0'] ++ '.' :: ['0', '0'])
      from by decide]
    rw [parseFloat_signed_decimal (by decide) (by decide) (by decide)]
    simp only [show natOfDigits ['0'] = 0 from rfl,
      show natOfDigits ['0', '0'] = 0 from rfl, Option.some.injEq]
    norm_num [Rat.mkRat_eq_div]
  rw [extract_single_number_token 0 unitRegion 0 (by decide) (by decide) hv
    (by decide) (by decide)]
  rw [show clean_word wNegZero.text = "-0.00" from by decide]
  have hrect : ocr_word_rect unitRegion wNegZero = ⟨0, 0, 0, 0⟩ := by
    unfold ocr_word_rect unitRegion wNegZero
    simp only [Rect.width, Rect.height, Rect.mk.injEq]
    norm_num
  rw [hrect]

/-- Bounds of a digit character's code point. -/
theorem char_digit_bounds {c : Char} (h : c.isDigit = true) :
    48 ≤ c.toNat ∧ c.toNat ≤ 57 := by
  simp [Char.isDigit] at h
  obtain ⟨h1, h2⟩ := h
  have g1 : (48 : UInt32).toNat ≤ c.val.toNat := h1
  have g2 : c.val.toNat ≤ (57 : UInt32).toNat := h2
  have e1 : (48 : UInt32).toNat = 48 := rfl
  have e2 : (57 : UInt32).toNat = 57 := rfl
  constructor
  · show 48 ≤ c.val.toNat
    omega
  · show c.val.toNat ≤ 57
    omega

/-- The value of a digit character is below 10. -/
theorem digitVal_lt_ten {c : Char} (h : c.isDigit = true) :
    digitVal c < 10 := by
  have := char_digit_bounds h
  unfold digitVal
  omega

/-- Two digit characters with equal values are equal. -/
theorem digit_eq_of_digitVal_eq {c d : Char} (hc : c.isDigit = true)
    (hd : d.isDigit = true) (h : digitVal c = digitVal d) : c = d := by
  have bc := char_digit_bounds hc
  have bd := char_digit_bounds hd
  have hn : c.toNat = d.toNat := by
    unfold digitVal at h
    omega
  exact Char.ext (UInt32.toNat.inj hn)

/-- Appending one digit multiplies the reading by 10 and adds the digit. -/
theorem natOfDigits_append (l : List Char) (c : Char) :
    natOfDigits (l ++ [c]) = 10 * natOfDigits l + digitVal c := by
  unfold natOfDigits
  rw [List.foldl_append]
  rfl

/-- Base-10 readings of equal-length digit strings are injective. -/
theorem natOfDigits_inj : ∀ (l1 l2 : List Char), l1.length = l2.length →
    l1.all Char.isDigit = true → l2.all Char.isDigit = true →
    natOfDigits l1 = natOfDigits l2 → l1 = l2 := by
  intro l1
  induction l1 using List.reverseRecOn with
  | nil =>
    intro l2 hlen _ _ _
    have hz : l2.length = 0 := by simpa using hlen.symm
    symm
    exact List.eq_nil_of_length_eq_zero hz
  | append_singleton a c ih =>
    intro l2 hlen ha1 ha2 hv
    induction l2 using List.reverseRecOn with
    | nil => simp at hlen
    | append_singleton a2 c2 _ =>
      rw [natOfDigits_append, natOfDigits_append] at hv
      simp only [List.all_append, List.all_cons, List.all_nil,
        Bool.and_eq_true, Bool.and_true, and_true] at ha1 ha2
      have hb1 := digitVal_lt_ten ha1.2
      have hb2 := digitVal_lt_ten ha2.2
      have hlen' : a.length = a2.length := by
        simp only [List.length_append, List.length_cons,
          List.length_nil] at hlen
        omega
      have hd : digitVal c = digitVal c2 := by omega
      have hn : natOfDigits a = natOfDigits a2 := by omega
      rw [ih a2 hlen' ha1.1 ha2.1 hn,
        digit_eq_of_digitVal_eq ha1.2 ha2.2 hd]

/-- Distinct naturals are at least one apart after casting to `ℚ`. -/
theorem natCast_abs_sub_ge_one {a b : ℕ} (h : a ≠ b) :
    (1 : ℚ) ≤ |(a : ℚ) - (b : ℚ)| := by
  have hz : ((a : ℤ) - (b : ℤ)) ≠ 0 := by
    intro he
    apply h
    omega
  have h1 : (1 : ℤ) ≤ |(a : ℤ) - (b : ℤ)| := Int.one_le_abs hz
  calc (1 : ℚ) = ((1 : ℤ) : ℚ) := by norm_num
    _ ≤ ((|(a : ℤ) - (b : ℤ)| : ℤ) : ℚ) := by exact_mod_cast h1
    _ = |(a : ℚ) - (b : ℚ)| := by push_cast; ring_nf

/-- The digit runs of a date-shaped string: exactly three groups whose
concatenation is the string's 8 digits. -/
theorem matchesDate_digitRuns {l : List Char} (h : matchesDate l = true) :
    (digitRuns l).length = 3
    ∧ (digitRuns l).join.all Char.isDigit = true
    ∧ (digitRuns l).join.length = 8
    ∧ l ≠ [] := by
  unfold matchesDate at h
  rcases Bool.or_eq_true_iff.mp h with h1 | h1
  · unfold dateShapeYearFirst at h1
    split at h1
    · rename_i c0 c1 c2 c3 s1 c4 c5 s2 c6 c7
      simp only [Bool.and_eq_true] at h1
      obtain ⟨⟨⟨⟨⟨⟨⟨⟨⟨hd0, hd1⟩, hd2⟩, hd3⟩, hs1⟩, hd4⟩, hd5⟩, hs2⟩,
        hd6⟩, hd7⟩ := h1
      have hn1 := isDateSep_not_digit hs1
      have hn2 := isDateSep_not_digit hs2
      refine ⟨?_, ?_, ?_, by simp⟩ <;>
        simp [digitRuns, digitRunsAux, hd0, hd1, hd2, hd3, hd4, hd5, hd6,
          hd7, hn1, hn2]
    · exact absurd h1 (by simp)
  · unfold dateShapeDayFirst at h1
    split at h1
    · rename_i c0 c1 s1 c2 c3 s2 c4 c5 c6 c7
      simp only [Bool.and_eq_true] at h1
      obtain ⟨⟨⟨⟨⟨⟨⟨⟨⟨hd0, hd1⟩, hs1⟩, hd2⟩, hd3⟩, hs2⟩, hd4⟩, hd5⟩,
        hd6⟩, hd7⟩ := h1
      have hn1 := isDateSep_not_digit hs1
      have hn2 := isDateSep_not_digit hs2
      refine ⟨?_, ?_, ?_, by simp⟩ <;>
        simp [digitRuns, digitRunsAux, hd0, hd1, hd2, hd3, hd4, hd5, hd6,
          hd7, hn1, hn2]
    · exact absurd h1 (by simp)

/-- The single token produced by the date branch of the word loop. -/
theorem extract_single_date_token (w : OcrWord) (i : ℕ) (r : Rect) (b : ℕ)
    (h : matchesDate (clean_word w.text).toList = true) :
    extract_numbers_from_ocr_words [w] i r b
      = [⟨clean_word w.text,
          ((natOfDigits (digitRuns (clean_word w.text).toList).join : ℕ) : ℚ),
          i, ocr_word_rect r w, b + 1, "ocr"⟩] := by
  obtain ⟨hlen3, hall, hlen8, hne⟩ := matchesDate_digitRuns h
  have hemp : ¬((clean_word w.text).isEmpty = true) := by
    rw [clean_not_isEmpty hne]
    exact Bool.false_ne_true
  have hneg : ((-1 : ℚ) < 0 ∨ mkRat 3 100 < |w.y0 - (-1 : ℚ)|) := by
    left
    norm_num
  have hjoin_ne : (digitRuns (clean_word w.text).toList).join ≠ [] := by
    intro he
    rw [he] at hlen8
    simp at hlen8
  rw [extract_single]
  simp only [ocr_word_step, if_neg hemp, if_pos hneg, h, if_true, hlen3,
    parseFloat_digits hjoin_ne hall, List.nil_append]

/-- C8 (amended): a recognized word matching a date shape produces exactly
one token whose numeric value is the concatenation of its three digit
groups; two aligned date tokens whose concatenated digit groups differ have
values differing by more than the default tolerance `1e-4` and are
reported as a single value mismatch.  (The original claim said "differ in
any group"; two dates of different shapes can differ group-wise yet
concatenate identically — e.g. `"1111-11-11"` vs `"11-11-1111"` — and are
then NOT reported, see the counterexample.) -/
theorem date_word_token_spec (w1 w2 : OcrWord) (i b : ℕ) (r : Rect)
    (h1 : matchesDate (clean_word w1.text).toList = true)
    (h2 : matchesDate (clean_word w2.text).toList = true) :
    extract_numbers_from_ocr_words [w1] i r b
      = [⟨clean_word w1.text,
          ((natOfDigits (digitRuns (clean_word w1.text).toList).join : ℕ) : ℚ),
          i, ocr_word_rect r w1, b + 1, "ocr"⟩]
    ∧ ((digitRuns (clean_word w1.text).toList).join
          ≠ (digitRuns (clean_word w2.text).toList).join →
        (compare_numbers (extract_numbers_from_ocr_words [w1] i r b)
            (extract_numbers_from_ocr_words [w2] i r b) (1/10000)).length = 1
        ∧ ∀ d ∈ compare_numbers (extract_numbers_from_ocr_words [w1] i r b)
            (extract_numbers_from_ocr_words [w2] i r b) (1/10000),
            d.old_value = clean_word w1.text
            ∧ d.new_value = clean_word w2.text) := by
  refine ⟨extract_single_date_token w1 i r b h1, ?_⟩
  intro hne
  obtain ⟨_, hall1, hlen81, _⟩ := matchesDate_digitRuns h1
  obtain ⟨_, hall2, hlen82, _⟩ := matchesDate_digitRuns h2
  have hvne : natOfDigits (digitRuns (clean_word w1.text).toList).join
      ≠ natOfDigits (digitRuns (clean_word w2.text).toList).join := by
    intro he
    exact hne (natOfDigits_inj _ _ (by rw [hlen81, hlen82]) hall1 hall2 he)
  have habs : (1/10000 : ℚ)
      < |((natOfDigits (digitRuns (clean_word w1.text).toList).join : ℕ) : ℚ)
          - ((natOfDigits (digitRuns (clean_word w2.text).toList).join : ℕ)
            : ℚ)| := by
    have hge := natCast_abs_sub_ge_one hvne
    calc (1/10000 : ℚ) < 1 := by norm_num
      _ ≤ _ := hge
  rw [extract_single_date_token w1 i r b h1,
    extract_single_date_token w2 i r b h2]
  constructor
  · simp only [compare_numbers, List.length_cons, List.length_nil,
      ne_eq, not_true_eq_false, if_false, List.zip_cons_cons,
      List.zip_nil_right, List.filterMap_cons, List.filterMap_nil]
    rw [if_pos habs]
    rfl
  · intro d hd
    simp only [compare_numbers, List.length_cons, List.length_nil,
      ne_eq, not_true_eq_false, if_false, List.zip_cons_cons,
      List.zip_nil_right, List.filterMap_cons, List.filterMap_nil] at hd
    rw [if_pos habs] at hd
    simp only [List.mem_singleton] at hd
    subst hd
    exact ⟨rfl, rfl⟩

/-- Witness for C8: `"2026-01-21"` vs `"2026-01-22"` — one token each,
valued at the group concatenations, and exactly one reported mismatch. -/
theorem date_word_token_spec_witness :
    extract_numbers_from_ocr_words [wDateA] 0 unitRegion 0
      = [⟨clean_word wDateA.text,
          ((natOfDigits (digitRuns (clean_word wDateA.text).toList).join
            : ℕ) : ℚ),
          0, ocr_word_rect unitRegion wDateA, 0 + 1, "ocr"⟩]
    ∧ ((digitRuns (clean_word wDateA.text).toList).join
          ≠ (digitRuns (clean_word wDateB.text).toList).join →
        (compare_numbers (extract_numbers_from_ocr_words [wDateA] 0 unitRegion 0)
            (extract_numbers_from_ocr_words [wDateB] 0 unitRegion 0)
            (1/10000)).length = 1
        ∧ ∀ d ∈ compare_numbers
            (extract_numbers_from_ocr_words [wDateA] 0 unitRegion 0)
            (extract_numbers_from_ocr_words [wDateB] 0 unitRegion 0)
            (1/10000),
            d.old_value = clean_word wDateA.text
            ∧ d.new_value = clean_word wDateB.text) :=
  date_word_token_spec wDateA wDateB 0 0 unitRegion (by decide) (by decide)

/-- Counterexample to C8 as stated: `"1111-11-11"` and `"11-11-1111"` are
both date-shaped and differ in their digit groups (first group `1111` vs
`11`), yet their concatenated values coincide (`11111111`), so NO
difference is reported for them. -/
theorem date_word_group_counterexample :
    matchesDate ((clean_word wDateC.text).toList) = true
    ∧ matchesDate ((clean_word wDateD.text).toList) = true
    ∧ digitRuns ((clean_word wDateC.text).toList)
        ≠ digitRuns ((clean_word wDateD.text).toList)
    ∧ compare_numbers (extract_numbers_from_ocr_words [wDateC] 0 unitRegion 0)
        (extract_numbers_from_ocr_words [wDateD] 0 unitRegion 0)
        (1/10000) = [] := by
  refine ⟨by decide, by decide, by decide, ?_⟩
  rw [extract_single_date_token wDateC 0 unitRegion 0 (by decide),
    extract_single_date_token wDateD 0 unitRegion 0 (by decide)]
  rw [show (digitRuns (clean_word wDateC.text).toList).join
      = (digitRuns (clean_word wDateD.text).toList).join from by decide]
  simp [compare_numbers]

/-- Digit runs re-parse to their base-10 reading even through the
comma-stripping of `reparse`. -/
theorem reparse_digit_run {run : List Char} (hne : run ≠ [])
    (hd : run.all Char.isDigit = true) :
    reparse (String.mk run) = some ((natOfDigits run : ℚ)) := by
  unfold reparse
  have hfil : ((String.mk run).toList.filter fun c => !(c == ',')) = run := by
    apply List.filter_eq_self.mpr
    intro c hc
    have hcd : c.isDigit = true := by
      have := List.all_eq_true.mp hd c hc
      simpa using this
    rw [digit_beq_false hcd (by decide)]
    rfl
  rw [hfil]
  exact parseFloat_digits hne hd

/-- The classification part of one recognized-word step preserves the
round-trip property: whatever branch fires, every appended token either
re-parses to its value or is date-shaped. -/
theorem step_branches_roundtrip (pg : ℕ) (rect : Rect) (lc : ℕ)
    (clean : String) (acc : List NumberMatch)
    (hst : ∀ t ∈ acc, TokenRoundtrip t) :
    ∀ t ∈ (if matchesDate clean.toList = true then
        (if (digitRuns clean.toList).length = 3 then
          match parseFloat? (digitRuns clean.toList).join with
          | some v => acc ++ [⟨clean, v, pg, rect, lc, "ocr"⟩]
          | none => acc
        else acc)
      else if matchesNumber clean.toList = true then
        match parseFloat? (clean.toList.filter fun c => !(c == ',')) with
        | some v =>
          if ((clean.toList.filter fun c =>
              !(c == ',' || c == '.' || c == '0'))).isEmpty = true then acc
          else if clean = "," ∨ clean = "." ∨ clean = "-" then acc
          else acc ++ [⟨clean, v, pg, rect, lc, "ocr"⟩]
        | none => acc
      else
        (digitRuns clean.toList).foldl (fun a run =>
          if run.length < 3 ∧ 1 < (digitRuns clean.toList).length then a
          else match parseFloat? run with
            | some v => a ++ [⟨String.mk run, v, pg, rect, lc, "ocr"⟩]
            | none => a) acc),
      TokenRoundtrip t := by
  intro t ht
  split at ht
  · rename_i hdate
    split at ht
    · split at ht
      · rcases List.mem_append.mp ht with h | h
        · exact hst t h
        · rw [List.mem_singleton] at h
          subst h
          right
          exact hdate
      · exact hst t ht
    · exact hst t ht
  · split at ht
    · rename_i hnum
      split at ht
      · rename_i v heq
        split at ht
        · exact hst t ht
        · split at ht
          · exact hst t ht
          · rcases List.mem_append.mp ht with h | h
            · exact hst t h
            · rw [List.mem_singleton] at h
              subst h
              left
              exact heq
      · exact hst t ht
    · rw [ocr_runs_foldl pg rect lc (digitRuns clean.toList).length
        (digitRuns clean.toList) acc
        (fun x hx => digitRuns_sound x hx)] at ht
      rcases List.mem_append.mp ht with h | h
      · exact hst t h
      · rw [List.mem_map] at h
        obtain ⟨run, hrun, rfl⟩ := h
        have hsound := digitRuns_sound run (List.mem_filter.mp hrun).1
        left
        exact reparse_digit_run hsound.1 hsound.2

/-- One step of the recognized-word loop preserves the round-trip
property of all accumulated tokens. -/
theorem ocr_word_step_roundtrip (i : ℕ) (r : Rect) (st : OcrScanState)
    (w : OcrWord) (hst : ∀ t ∈ st.acc, TokenRoundtrip t) :
    ∀ t ∈ (ocr_word_step i r st w).acc, TokenRoundtrip t := by
  unfold ocr_word_step
  by_cases hemp : (clean_word w.text).isEmpty = true
  · rw [if_pos hemp]
    exact hst
  · rw [if_neg hemp]
    by_cases hline : (st.last_y < 0 ∨ mkRat 3 100 < |w.y0 - st.last_y|)
    · rw [if_pos hline]
      exact step_branches_roundtrip i (ocr_word_rect r w)
        (st.line_counter + 1) (clean_word w.text) st.acc hst
    · rw [if_neg hline]
      exact step_branches_roundtrip i (ocr_word_rect r w)
        st.line_counter (clean_word w.text) st.acc hst

/-- The whole recognized-word loop preserves the round-trip property. -/
theorem ocr_fold_roundtrip (i : ℕ) (r : Rect) :
    ∀ (ws : List OcrWord) (st : OcrScanState),
      (∀ t ∈ st.acc, TokenRoundtrip t) →
      ∀ t ∈ (ws.foldl (ocr_word_step i r) st).acc, TokenRoundtrip t := by
  intro ws
  induction ws with
  | nil => intro st hst t ht; exact hst t ht
  | cons w rest ih =>
    intro st hst t ht
    rw [List.foldl_cons] at ht
    exact ih (ocr_word_step i r st w) (ocr_word_step_roundtrip i r st w hst)
      t ht

/-- Every token of one span's scan re-parses to its stored value. -/
theorem span_numbers_roundtrip (page_num line_no : ℕ) (sp : TextSpan) :
    ∀ t ∈ span_numbers page_num line_no sp,
      reparse t.value = some t.numeric_value := by
  intro t ht
  unfold span_numbers at ht
  obtain ⟨sm, _, hf⟩ := List.mem_filterMap.mp ht
  dsimp only at hf
  split at hf
  · exact absurd hf (by simp)
  · split at hf
    · exact absurd hf (by simp)
    · rename_i v heq
      rw [Option.some.injEq] at hf
      subst hf
      exact heq

/-- C6 (amended): every token extracted from the native text layer
re-parses (strip commas, convert) to exactly its stored numeric value; for
recognition-derived tokens the same holds except for date-shaped tokens,
whose raw text (e.g. `"2026-01-21"`) does not re-parse as a number at all
— their value is the concatenation of their digit groups (see the
counterexample to the unamended claim). -/
theorem token_roundtrip_spec (blocks : List TextBlock) (i : ℕ)
    (ws : List OcrWord) (r : Rect) (b : ℕ) :
    (∀ t ∈ (extract_numbers_from_page blocks i).1,
        reparse t.value = some t.numeric_value)
    ∧ (∀ t ∈ extract_numbers_from_ocr_words ws i r b,
        reparse t.value = some t.numeric_value
        ∨ matchesDate t.value.toList = true) := by
  constructor
  · intro t ht
    unfold extract_numbers_from_page at ht
    dsimp only at ht
    rw [List.mem_flatMap] at ht
    obtain ⟨p, _, hp⟩ := ht
    rw [List.mem_flatMap] at hp
    obtain ⟨sp, _, hsp⟩ := hp
    exact span_numbers_roundtrip i (p.1 + 1) sp t hsp
  · intro t ht
    unfold extract_numbers_from_ocr_words at ht
    refine ocr_fold_roundtrip i r (sortWords ws) ⟨b, -1, []⟩ ?_ t ht
    intro t' ht'
    simp at ht'

/-- Counterexample to C6 as stated: the recognized date word
`"2026-01-21"` is stored with numeric value `20260121` (the concatenation
of its digit groups), but re-parsing its raw text fails (`float` raises on
`"2026-01-21"`), so the stored value does not equal the re-parse result. -/
theorem token_roundtrip_counterexample :
    (extract_numbers_from_ocr_words [wDateA] 0 unitRegion 0).map
        (fun t => reparse t.value) = [none]
    ∧ (extract_numbers_from_ocr_words [wDateA] 0 unitRegion 0).map
        NumberMatch.numeric_value = [((20260121 : ℕ) : ℚ)] := by
  rw [extract_single_date_token wDateA 0 unitRegion 0 (by decide)]
  constructor
  · simp only [List.map_cons, List.map_nil]
    decide
  · simp only [List.map_cons, List.map_nil]
    rw [show natOfDigits (digitRuns ((clean_word wDateA.text)).toList).join
        = 20260121 from by decide]

/-- A failed recognition call yields no words, whatever the client
state. -/
theorem ocr_image_with_boxes_err {resp : VisionResponse} (client : Bool)
    (h : attempt_errors (OcrAttempt.response resp) = true) :
    ocr_image_with_boxes client resp = [] := by
  cases resp with
  | failure => cases client <;> rfl
  | errorMsg m => cases client <;> rfl
  | ok ws => exact absurd h (by simp [attempt_errors])

/-- The embedded-image loop leaves its state unchanged when every image's
recognition attempt errors. -/
theorem process_image_err_fold (client : Bool) (pgn : ℕ)
    (pb : ℚ × ℚ × ℚ × ℚ) :
    ∀ (imgs : List ImageItem) (st : List NumberMatch × Bool),
      (∀ img ∈ imgs, attempt_errors img.ocr = true) →
      imgs.foldl (process_image client pgn pb) st = st := by
  intro imgs
  induction imgs with
  | nil => intro st _; rfl
  | cons img rest ih =>
    intro st himg
    rw [List.foldl_cons]
    have hstep : process_image client pgn pb st img = st := by
      unfold process_image
      rcases hcl : clamp_bbox_to_page (img.x0, img.top, img.x1, img.bottom)
          pb with _ | sb
      · rfl
      · rcases hoc : img.ocr with _ | resp
        · rfl
        · have herr := himg img (List.mem_cons_self img rest)
          rw [hoc] at herr
          dsimp only
          rw [ocr_image_with_boxes_err client herr]
          simp
    rw [hstep]
    exact ih st (fun x hx => himg x (List.mem_cons.mpr (Or.inr hx)))

/-- C5: an error anywhere in the recognition capability — an uninitialized
client, a crash while rasterizing, a raised recognition call or an error
response, on the full-page attempt and on every embedded image — is
recovered locally: the page keeps exactly its native text-layer tokens,
the page is not counted as an OCR page, and extraction continues with the
following pages (their result is appended unchanged). -/
theorem ocr_error_recovery (use_ocr client plumber_ok : Bool) (p : PdfPage)
    (rest : List PdfPage) (i : ℕ)
    (h : client = false
      ∨ (attempt_errors p.full_ocr = true
          ∧ ∀ img ∈ p.images, attempt_errors img.ocr = true)) :
    process_page use_ocr client plumber_ok p i = (native_numbers p i, false)
    ∧ extract_pages use_ocr client plumber_ok i (p :: rest)
        = (native_numbers p i
            ++ (extract_pages use_ocr client plumber_ok (i + 1) rest).1,
          (extract_pages use_ocr client plumber_ok (i + 1) rest).2) := by
  have hmain : process_page use_ocr client plumber_ok p i
      = (native_numbers p i, false) := by
    rcases h with hc | ⟨hf, himg⟩
    · subst hc
      simp [process_page]
    · unfold process_page
      by_cases hcond1 : (page_needs_ocr use_ocr p i
          && (use_ocr && client && plumber_ok)) = true
      · rw [if_pos hcond1]
        rcases hoc : p.full_ocr with _ | resp
        · rfl
        · rw [hoc] at hf
          dsimp only
          rw [ocr_image_with_boxes_err client hf]
          simp
      · rw [if_neg hcond1]
        by_cases hcond2 : (page_has_text p i
            && (use_ocr && client && plumber_ok)) = true
        · rw [if_pos hcond2]
          by_cases hio : p.images_ok
          · rw [if_neg (by simp [hio])]
            by_cases hie : p.images.isEmpty
            · rw [if_neg (by simp [hie])]
            · rw [if_pos (by simp [hie])]
              exact process_image_err_fold client i (0, 0, p.width, p.height)
                p.images (native_numbers p i, false) himg
          · rw [if_pos (by simp [hio])]
        · rw [if_neg hcond2]
  refine ⟨hmain, ?_⟩
  show (let pr := process_page use_ocr client plumber_ok p i
    let r := extract_pages use_ocr client plumber_ok (i + 1) rest
    (pr.1 ++ r.1, (if pr.2 then 1 else 0) + r.2))
      = _
  rw [hmain]
  simp

/-- Witness for C5: a crashing full-page recognition attempt leaves the
page's (empty) native token list unchanged, counts no OCR page, and the
run completes normally. -/
theorem ocr_error_recovery_witness :
    process_page true true true pgErr 0 = (native_numbers pgErr 0, false)
    ∧ extract_pages true true true 0 (pgErr :: [])
        = (native_numbers pgErr 0
            ++ (extract_pages true true true (0 + 1) []).1,
          (extract_pages true true true (0 + 1) []).2) :=
  ocr_error_recovery true true true pgErr [] 0
    (Or.inr ⟨rfl, fun img h => absurd h (List.not_mem_nil img)⟩)

/-- C4: with OCR enabled, the Vision client initialized and the pdfplumber
document open, the full-page recognition fallback fires exactly when the
page has no genuine selectable text, or has selectable text but zero
extracted numeric tokens together with the `"(cid:"` unmapped-glyph marker
in its raw text (first conjunct); and when it fires and recognition yields
words whose extraction is nonempty, the page's native token list is
discarded and replaced by the recognition-derived tokens, with the page
counted as an OCR page (second conjunct). -/
theorem full_page_ocr_fallback_spec (p : PdfPage) (i : ℕ) :
    (page_needs_ocr true p i
      = (!page_has_text p i
          || (page_has_text p i && (native_numbers p i).isEmpty
              && looks_like_cid_encoded p.raw_text)))
    ∧ (∀ resp nums, p.full_ocr = OcrAttempt.response resp →
        page_needs_ocr true p i = true →
        ocr_image_with_boxes true resp ≠ [] →
        nums = extract_numbers_from_ocr_words (ocr_image_with_boxes true resp)
          i ⟨0, 0, p.width, p.height⟩ 0 →
        nums ≠ [] →
        process_page true true true p i = (nums, true)) := by
  constructor
  · unfold page_needs_ocr
    rcases h1 : page_has_text p i with _ | _
    · simp
    · rcases hn : native_numbers p i with _ | ⟨x, xs⟩ <;> simp [hn]
  · intro resp nums hresp hneeds hws hnums hne
    unfold process_page
    rw [if_pos (by simp [hneeds]), hresp]
    dsimp only
    have hwsne : (ocr_image_with_boxes true resp).isEmpty = false := by
      rcases hl : ocr_image_with_boxes true resp with _ | ⟨a, b⟩
      · exact absurd hl hws
      · rfl
    have hnumsne : (extract_numbers_from_ocr_words
        (ocr_image_with_boxes true resp) i ⟨0, 0, p.width, p.height⟩
        0).isEmpty = false := by
      rw [← hnums]
      rcases hl : nums with _ | ⟨a, b⟩
      · exact absurd hl hne
      · rfl
    rw [hwsne, hnumsne]
    simp [hnums]

/-- Witness for C4: on a page with no selectable text, a successful
full-page recognition replaces the (empty) native token list with the
recognition-derived tokens and counts the page as an OCR page. -/
theorem full_page_ocr_fallback_spec_witness :
    process_page true true true pgOcr 0
      = (extract_numbers_from_ocr_words [wNum] 0 ⟨0, 0, (612 : ℚ), (792 : ℚ)⟩
          0, true) := by
  have hv : parseFloat? ((clean_word wNum.text).toList.filter
      fun c => !(c == ',')) = some ((natOfDigits ("123".toList) : ℚ)) := by
    rw [show ((clean_word wNum.text).toList.filter fun c => !(c == ','))
        = "123".toList from by decide]
    exact parseFloat_digits (by decide) (by decide)
  have hne : extract_numbers_from_ocr_words [wNum] 0
      ⟨0, 0, (612 : ℚ), (792 : ℚ)⟩ 0 ≠ [] := by
    rw [extract_single_number_token 0 ⟨0, 0, (612 : ℚ), (792 : ℚ)⟩ 0
      (by decide) (by decide) hv (by decide) (by decide)]
    simp
  exact (full_page_ocr_fallback_spec pgOcr 0).2
    (VisionResponse.ok [wNum])
    (extract_numbers_from_ocr_words [wNum] 0 ⟨0, 0, (612 : ℚ), (792 : ℚ)⟩ 0)
    rfl (by decide) (by decide) rfl hne
